import Mathlib

/-!
Verification of the context-engine core of the repository: the ToolsEngine
(tool resolution, capability gating, registry mutation) and the fixed
processor order of the contextEngineering pipeline, shallowly embedded in
Lean from the TypeScript source.

The `parameters` JSON payload of a plugin API and the opaque generation
context are kept abstract as type parameters `P` and `C`.
-/

set_option maxHeartbeats 1000000

namespace ContextEngineCore

/-- An API entry of a plugin manifest (`LobeChatPluginApi`): name,
description and a parameters schema object (abstract type `P`). -/
structure LobeChatPluginApi (P : Type) where
  name : String
  description : String
  parameters : P
deriving DecidableEq, Repr

/-- A plugin manifest as consumed by the ToolsEngine: unique identifier,
ordered API list and an optional runtime type tag. -/
structure LobeChatPluginManifest (P : Type) where
  identifier : String
  api : List (LobeChatPluginApi P)
  type : Option String
deriving DecidableEq, Repr

/-- The `function` payload of a uniform tool. -/
structure UniformToolFunction (P : Type) where
  description : String
  name : String
  parameters : P
deriving DecidableEq, Repr

/-- OpenAI-style uniform tool: a function object tagged with the literal
string "function". -/
structure UniformTool (P : Type) where
  function : UniformToolFunction P
  type : String
deriving DecidableEq, Repr

/-- Reason a plugin id was filtered out of the tool list. -/
inductive FilterReason where
  | not_found
  | disabled
  | incompatible
deriving DecidableEq, Repr

/-- A filtered-out plugin id together with its reason. -/
structure FilteredPlugin where
  id : String
  reason : FilterReason
deriving DecidableEq, Repr

/-- Result of `generateToolsDetailed`. -/
structure ToolsGenerationResult (P : Type) where
  enabledToolIds : List String
  filteredTools : List FilteredPlugin
  tools : Option (List (UniformTool P))
deriving DecidableEq, Repr

/-- Argument record handed to an injected plugin enable checker. -/
structure EnableCheckerParams (P C : Type) where
  context : Option C
  manifest : LobeChatPluginManifest P
  model : String
  pluginId : String
  provider : String

/-- Parameters of `generateTools` / `generateToolsDetailed`; `toolIds` is
optional and defaults to the empty list. -/
structure GenerateToolsParams (C : Type) where
  toolIds : Option (List String)
  model : String
  provider : String
  context : Option C

/-- Construction options of the ToolsEngine. -/
structure ToolsEngineOptions (P C : Type) where
  manifestSchemas : List (LobeChatPluginManifest P)
  enableChecker : Option (EnableCheckerParams P C → Bool)
  functionCallChecker : Option (String → String → Bool)
  defaultToolIds : Option (List String)
  generateToolName : Option (String → String → Option String → String)

/-! ### JavaScript `Map` model

The engine stores its registry in a JS `Map`. We model it as an
association list in insertion order: `set` on a present key overwrites the
value in place, `set` on an absent key appends, `delete` removes, the key
list is the insertion-ordered key sequence. -/

/-- Association-list model of a JS `Map<string, manifest>`. -/
abbrev ManifestMap (P : Type) := List (String × LobeChatPluginManifest P)

/-- `Map.get`. -/
def mapGet {P : Type} (m : ManifestMap P) (k : String) :
    Option (LobeChatPluginManifest P) :=
  (m.find? (fun p => p.1 == k)).map (fun p => p.2)

/-- `Map.has`. -/
def mapHas {P : Type} (m : ManifestMap P) (k : String) : Bool :=
  (m.find? (fun p => p.1 == k)).isSome

/-- `Map.set`: overwrite in place when the key is present, append
otherwise. -/
def mapSet {P : Type} (m : ManifestMap P) (k : String)
    (v : LobeChatPluginManifest P) : ManifestMap P :=
  if mapHas m k then
    m.map (fun p => if p.1 == k then (k, v) else p)
  else
    m ++ [(k, v)]

/-- `Map.delete` (the removal part; the returned boolean is `mapHas`). -/
def mapDelete {P : Type} (m : ManifestMap P) (k : String) : ManifestMap P :=
  m.filter (fun p => !(p.1 == k))

/-- `new Map(entries)`: insert each entry in order into an empty map. -/
def mapFromList {P : Type} (l : List (LobeChatPluginManifest P)) :
    ManifestMap P :=
  l.foldl (fun m s => mapSet m s.identifier s) []

/-! ### The ToolsEngine -/

/-- State of a `ToolsEngine` instance. -/
structure ToolsEngine (P C : Type) where
  manifestSchemas : ManifestMap P
  enableChecker : Option (EnableCheckerParams P C → Bool)
  functionCallChecker : Option (String → String → Bool)
  defaultToolIds : List String
  options : ToolsEngineOptions P C

/-- The `ToolsEngine` constructor: builds the registry map from the
manifest list and stores the checkers and default tool ids. -/
def mkToolsEngine {P C : Type} (options : ToolsEngineOptions P C) :
    ToolsEngine P C :=
  { manifestSchemas := mapFromList options.manifestSchemas
    enableChecker := options.enableChecker
    functionCallChecker := options.functionCallChecker
    defaultToolIds := options.defaultToolIds.getD []
    options := options }

/-- `checkFunctionCallSupport`: ask the injected checker, defaulting to
`true` when none was provided. -/
def ToolsEngine.checkFunctionCallSupport {P C : Type} (e : ToolsEngine P C)
    (model provider : String) : Bool :=
  match e.functionCallChecker with
  | some checker => checker model provider
  | none => true

/-- `defaultEnabledCheck`: with no injected enable checker every tool is
enabled. -/
def defaultEnabledCheck : Bool := true

/-- The enable decision for one plugin: the injected checker when present,
the default check otherwise. -/
def ToolsEngine.pluginEnabled {P C : Type} (e : ToolsEngine P C)
    (context : Option C) (manifest : LobeChatPluginManifest P)
    (model pluginId provider : String) : Bool :=
  match e.enableChecker with
  | some checker => checker ⟨context, manifest, model, pluginId, provider⟩
  | none => defaultEnabledCheck

/-- Accumulator of `filterEnabledPlugins`. -/
structure FilterResult (P : Type) where
  enabledManifests : List (LobeChatPluginManifest P)
  filteredPlugins : List FilteredPlugin
deriving DecidableEq, Repr

/-- One loop iteration of `filterEnabledPlugins`: look the id up in the
registry, classify as `not_found`, enabled or `disabled`. -/
def filterStep {P C : Type} (e : ToolsEngine P C) (model provider : String)
    (context : Option C) (acc : FilterResult P) (pluginId : String) :
    FilterResult P :=
  match mapGet e.manifestSchemas pluginId with
  | none =>
      { acc with filteredPlugins :=
          acc.filteredPlugins ++ [⟨pluginId, FilterReason.not_found⟩] }
  | some manifest =>
      if e.pluginEnabled context manifest model pluginId provider then
        { acc with enabledManifests := acc.enabledManifests ++ [manifest] }
      else
        { acc with filteredPlugins :=
            acc.filteredPlugins ++ [⟨pluginId, FilterReason.disabled⟩] }

/-- `filterEnabledPlugins`: fold the classification loop over the merged
plugin id list, starting from empty accumulators. -/
def ToolsEngine.filterEnabledPlugins {P C : Type} (e : ToolsEngine P C)
    (pluginIds : List String) (model provider : String)
    (context : Option C) : FilterResult P :=
  pluginIds.foldl (filterStep e model provider context) ⟨[], []⟩

/-- The reserved separator character of the default tool-name generator. -/
def toolNameSepChar : Char := '_'

/-- The reserved separator string of the default tool-name generator. -/
def toolNameSep : String := "_"

/-- Modelled from the spec: the default tool-name generation logic lives in
`utils`, which is not part of the excerpt. Per the Name Resolver section the
full identifier is used as a namespacing prefix, joined with the api name
and the manifest type rendering by a reserved separator. -/
def defaultGenerateToolName (identifier apiName : String)
    (ty : Option String) : String :=
  identifier ++ toolNameSep ++ apiName ++ toolNameSep ++ ty.getD ""

/-- `ToolsEngine.generateToolName`: injected generator when provided,
default logic otherwise. -/
def ToolsEngine.generateToolName {P C : Type} (e : ToolsEngine P C)
    (identifier apiName : String) (ty : Option String) : String :=
  match e.options.generateToolName with
  | some g => g identifier apiName ty
  | none => defaultGenerateToolName identifier apiName ty

/-- `convertManifestsToTools`: flatten each manifest's API list into one
uniform tool per API entry. -/
def ToolsEngine.convertManifestsToTools {P C : Type} (e : ToolsEngine P C)
    (manifests : List (LobeChatPluginManifest P)) : List (UniformTool P) :=
  manifests.flatMap (fun manifest =>
    manifest.api.map (fun api =>
      { function :=
          { description := api.description
            name := e.generateToolName manifest.identifier api.name
              manifest.type
            parameters := api.parameters }
        type := "function" }))

/-- `generateTools`: merge requested and default ids, gate on
function-calling support, filter, collapse an empty manifest list to
absence, convert. -/
def ToolsEngine.generateTools {P C : Type} (e : ToolsEngine P C)
    (params : GenerateToolsParams C) : Option (List (UniformTool P)) :=
  let allToolIds := params.toolIds.getD [] ++ e.defaultToolIds
  if !(e.checkFunctionCallSupport params.model params.provider) then none
  else
    let r := e.filterEnabledPlugins allToolIds params.model params.provider
      params.context
    if r.enabledManifests.length = 0 then none
    else some (e.convertManifestsToTools r.enabledManifests)

/-- `generateToolsDetailed`: same filtering and conversion with full
diagnostics; no function-calling gate, and the tool list is absent exactly
when the converted list is empty. -/
def ToolsEngine.generateToolsDetailed {P C : Type} (e : ToolsEngine P C)
    (params : GenerateToolsParams C) : ToolsGenerationResult P :=
  let allToolIds := params.toolIds.getD [] ++ e.defaultToolIds
  let r := e.filterEnabledPlugins allToolIds params.model params.provider
    params.context
  let tools := e.convertManifestsToTools r.enabledManifests
  { enabledToolIds := r.enabledManifests.map (fun m => m.identifier)
    filteredTools := r.filteredPlugins
    tools := if tools.length > 0 then some tools else none }

/-- `getAvailablePlugins`: the registry's key list in insertion order. -/
def ToolsEngine.getAvailablePlugins {P C : Type} (e : ToolsEngine P C) :
    List String :=
  e.manifestSchemas.map (fun p => p.1)

/-- `hasPlugin`. -/
def ToolsEngine.hasPlugin {P C : Type} (e : ToolsEngine P C)
    (pluginId : String) : Bool :=
  mapHas e.manifestSchemas pluginId

/-- `getPluginManifest`. -/
def ToolsEngine.getPluginManifest {P C : Type} (e : ToolsEngine P C)
    (pluginId : String) : Option (LobeChatPluginManifest P) :=
  mapGet e.manifestSchemas pluginId

/-- `updateManifestSchemas`: clear the registry and re-insert each manifest
in order. -/
def ToolsEngine.updateManifestSchemas {P C : Type} (e : ToolsEngine P C)
    (manifestSchemas : List (LobeChatPluginManifest P)) : ToolsEngine P C :=
  { e with manifestSchemas := mapFromList manifestSchemas }

/-- `addPluginManifest`. -/
def ToolsEngine.addPluginManifest {P C : Type} (e : ToolsEngine P C)
    (manifest : LobeChatPluginManifest P) : ToolsEngine P C :=
  { e with manifestSchemas :=
      mapSet e.manifestSchemas manifest.identifier manifest }

/-- `removePluginManifest`: the boolean result of `Map.delete` plus the
updated state. -/
def ToolsEngine.removePluginManifest {P C : Type} (e : ToolsEngine P C)
    (pluginId : String) : Bool × ToolsEngine P C :=
  (mapHas e.manifestSchemas pluginId,
    { e with manifestSchemas := mapDelete e.manifestSchemas pluginId })

/-! ### Characterization of the filtering loop -/

/-- What one merged id contributes to the enabled manifest list: the
registry manifest when found and enabled, nothing otherwise. -/
def enabledResolve {P C : Type} (e : ToolsEngine P C)
    (model provider : String) (context : Option C) (pluginId : String) :
    Option (LobeChatPluginManifest P) :=
  match mapGet e.manifestSchemas pluginId with
  | none => none
  | some m =>
      if e.pluginEnabled context m model pluginId provider then some m
      else none

/-- What one merged id contributes to the filtered-out diagnostics. -/
def filteredResolve {P C : Type} (e : ToolsEngine P C)
    (model provider : String) (context : Option C) (pluginId : String) :
    Option FilteredPlugin :=
  match mapGet e.manifestSchemas pluginId with
  | none => some ⟨pluginId, FilterReason.not_found⟩
  | some m =>
      if e.pluginEnabled context m model pluginId provider then none
      else some ⟨pluginId, FilterReason.disabled⟩

theorem foldl_filterStep {P C : Type} (e : ToolsEngine P C)
    (model provider : String) (context : Option C) :
    ∀ (ids : List String) (acc : FilterResult P),
      ids.foldl (filterStep e model provider context) acc =
        ⟨acc.enabledManifests ++
            ids.filterMap (enabledResolve e model provider context),
          acc.filteredPlugins ++
            ids.filterMap (filteredResolve e model provider context)⟩ := by
  intro ids
  induction ids with
  | nil => intro acc; simp
  | cons pluginId rest ih =>
      intro acc
      simp only [List.foldl_cons, List.filterMap_cons]
      rw [ih]
      unfold filterStep enabledResolve filteredResolve
      cases h : mapGet e.manifestSchemas pluginId with
      | none => simp
      | some m =>
          cases hEn : e.pluginEnabled context m model pluginId provider <;>
            simp [hEn]

/-- The filtering loop is equivalent to two independent `filterMap`s over
the merged id list. -/
theorem filterEnabledPlugins_eq {P C : Type} (e : ToolsEngine P C)
    (pluginIds : List String) (model provider : String)
    (context : Option C) :
    e.filterEnabledPlugins pluginIds model provider context =
      ⟨pluginIds.filterMap (enabledResolve e model provider context),
        pluginIds.filterMap (filteredResolve e model provider context)⟩ := by
  unfold ToolsEngine.filterEnabledPlugins
  rw [foldl_filterStep]
  simp

/-! ### Laws of the map model -/

theorem mapHas_eq_isSome_mapGet {P : Type} (m : ManifestMap P)
    (k : String) : mapHas m k = (mapGet m k).isSome := by
  simp [mapHas, mapGet]

theorem mapGet_cons {P : Type} (p : String × LobeChatPluginManifest P)
    (rest : ManifestMap P) (k : String) :
    mapGet (p :: rest) k = if p.1 = k then some p.2 else mapGet rest k := by
  by_cases h : p.1 = k <;> simp [mapGet, List.find?_cons, h]

theorem mapGet_append {P : Type} (m1 m2 : ManifestMap P) (k : String) :
    mapGet (m1 ++ m2) k = (mapGet m1 k).or (mapGet m2 k) := by
  unfold mapGet
  rw [List.find?_append]
  cases List.find? (fun p => p.1 == k) m1 <;> simp

theorem mapGet_map_overwrite_ne {P : Type} (k k' : String)
    (v : LobeChatPluginManifest P) (hne : k ≠ k') :
    ∀ m : ManifestMap P,
      mapGet (m.map (fun p => if p.1 == k then (k, v) else p)) k' =
        mapGet m k' := by
  intro m
  induction m with
  | nil => rfl
  | cons p rest ih =>
      simp only [List.map_cons]
      by_cases hp : p.1 = k
      · rw [if_pos (by simp [hp]), mapGet_cons, mapGet_cons, ih,
          if_neg hne, if_neg (by rw [hp]; exact hne)]
      · rw [if_neg (by simp [hp]), mapGet_cons, mapGet_cons, ih]

theorem mapGet_map_overwrite_eq {P : Type} (k : String)
    (v : LobeChatPluginManifest P) :
    ∀ m : ManifestMap P, mapHas m k = true →
      mapGet (m.map (fun p => if p.1 == k then (k, v) else p)) k =
        some v := by
  intro m
  induction m with
  | nil => intro h; simp [mapHas] at h
  | cons p rest ih =>
      intro hhas
      simp only [List.map_cons]
      by_cases hp : p.1 = k
      · rw [if_pos (by simp [hp]), mapGet_cons, if_pos rfl]
      · rw [if_neg (by simp [hp]), mapGet_cons, if_neg hp]
        apply ih
        rw [mapHas_eq_isSome_mapGet, mapGet_cons, if_neg hp,
          ← mapHas_eq_isSome_mapGet] at hhas
        exact hhas

/-- `Map.set` then `Map.get`: the written key reads the written value, any
other key is untouched. -/
theorem mapGet_mapSet {P : Type} (m : ManifestMap P) (k k' : String)
    (v : LobeChatPluginManifest P) :
    mapGet (mapSet m k v) k' =
      if k = k' then some v else mapGet m k' := by
  unfold mapSet
  cases hhas : mapHas m k with
  | true =>
      rw [if_pos rfl]
      by_cases hk : k = k'
      · subst hk
        rw [if_pos rfl, mapGet_map_overwrite_eq k v m hhas]
      · rw [if_neg hk, mapGet_map_overwrite_ne k k' v hk m]
  | false =>
      rw [if_neg (by simp [hhas])]
      rw [mapGet_append]
      by_cases hk : k = k'
      · subst hk
        have hnone : mapGet m k = none := by
          have h2 := mapHas_eq_isSome_mapGet m k
          rw [hhas] at h2
          cases hg : mapGet m k
          · rfl
          · rw [hg] at h2; simp at h2
        rw [if_pos rfl, hnone, Option.none_or, mapGet_cons, if_pos rfl]
      · rw [if_neg hk, mapGet_cons, if_neg hk]
        exact Option.or_none

/-- `Map.delete` removes the key. -/
theorem mapGet_mapDelete_self {P : Type} (m : ManifestMap P) (k : String) :
    mapGet (mapDelete m k) k = none := by
  induction m with
  | nil => rfl
  | cons p rest ih =>
      unfold mapDelete at ih ⊢
      rw [List.filter_cons]
      by_cases h : p.1 = k
      · rw [if_neg (by simp [h])]
        exact ih
      · rw [if_pos (by simp [h]), mapGet_cons, if_neg h]
        exact ih

theorem mapGet_foldl_mapSet {P : Type} (k : String) :
    ∀ (l : List (LobeChatPluginManifest P)) (m0 : ManifestMap P),
      mapGet (l.foldl (fun m s => mapSet m s.identifier s) m0) k =
        (l.reverse.find? (fun s => s.identifier == k)).or (mapGet m0 k) := by
  intro l
  induction l with
  | nil => intro m0; simp
  | cons s rest ih =>
      intro m0
      rw [List.foldl_cons, ih, List.reverse_cons, List.find?_append,
        Option.or_assoc]
      congr 1
      rw [mapGet_mapSet]
      by_cases h : s.identifier = k
      · simp [List.find?_cons, h]
      · simp [List.find?_cons, h]

/-- `new Map(entries)` then `get`: the last entry with the key wins. -/
theorem mapGet_mapFromList {P : Type}
    (l : List (LobeChatPluginManifest P)) (k : String) :
    mapGet (mapFromList l) k =
      l.reverse.find? (fun s => s.identifier == k) := by
  unfold mapFromList
  rw [mapGet_foldl_mapSet]
  simp [mapGet]

/-- A key is among the map's keys exactly when `has` reports it. -/
theorem mem_keys_iff_mapHas {P : Type} (m : ManifestMap P) (k : String) :
    k ∈ m.map (fun p => p.1) ↔ mapHas m k = true := by
  unfold mapHas
  rw [List.find?_isSome]
  simp only [List.mem_map, beq_iff_eq]

/-! ### Unique splitting at a reserved separator -/

theorem sep_split {c : Char} :
    ∀ (xs ys rest1 rest2 : List Char), c ∉ xs → c ∉ ys →
      xs ++ c :: rest1 = ys ++ c :: rest2 → xs = ys ∧ rest1 = rest2 := by
  intro xs
  induction xs with
  | nil =>
      intro ys rest1 rest2 _ hys h
      cases ys with
      | nil => simpa using h
      | cons y ys2 =>
          simp only [List.nil_append, List.cons_append,
            List.cons.injEq] at h
          have hc : c ∈ y :: ys2 := by
            rw [h.1]; exact List.mem_cons_self y ys2
          exact absurd hc hys
  | cons x xs2 ih =>
      intro ys rest1 rest2 hxs hys h
      cases ys with
      | nil =>
          simp only [List.nil_append, List.cons_append,
            List.cons.injEq] at h
          have hc : c ∈ x :: xs2 := by
            rw [← h.1]; exact List.mem_cons_self x xs2
          exact absurd hc hxs
      | cons y ys2 =>
          simp only [List.cons_append, List.cons.injEq] at h
          obtain ⟨hxy, h2⟩ := h
          have hx2 : c ∉ xs2 := fun hm => hxs (List.mem_cons_of_mem _ hm)
          have hy2 : c ∉ ys2 := fun hm => hys (List.mem_cons_of_mem _ hm)
          obtain ⟨he, hr⟩ := ih ys2 rest1 rest2 hx2 hy2 h2
          exact ⟨by rw [hxy, he], hr⟩

/-- The character list underlying a default-generated tool name. -/
theorem defaultGenerateToolName_data (identifier apiName : String)
    (ty : Option String) :
    (defaultGenerateToolName identifier apiName ty).data =
      identifier.data ++ toolNameSepChar ::
        (apiName.data ++ toolNameSepChar :: (ty.getD "").data) := by
  unfold defaultGenerateToolName
  rw [String.data_append, String.data_append, String.data_append,
    String.data_append]
  simp [toolNameSep, toolNameSepChar]

/-! ### The contextEngineering pipeline

`contextEngineering` builds a `ContextEngine` whose pipeline is a literal
list of eleven configured processors.  We embed the construction of that
list; function-valued collaborators (capability checks, variable
generators, tool system-role lookup, name generator) are external and
carry no data relevant to the processor order, so each processor is
represented by its constructor together with its data configuration. -/

/-- The identity of a pipeline stage, without its configuration. -/
inductive ProcessorKind where
  | historyTruncate
  | systemRoleInjection
  | inboxGuide
  | toolSystemRole
  | historySummary
  | inputTemplate
  | placeholderVariables
  | messageContent
  | toolCall
  | toolMessageReorder
  | messageCleanup
deriving DecidableEq, Repr

/-- A configured pipeline stage, one constructor per processor class used
in `contextEngineering`, carrying the data part of its configuration. -/
inductive PipelineProcessor where
  | historyTruncateProcessor (enableHistoryCount : Option Bool)
      (historyCount : Option Nat)
  | systemRoleInjector (systemRole : Option String)
  | inboxGuideProvider (inboxGuideSystemRole : String)
      (inboxSessionId : String) (isWelcomeQuestion : Option Bool)
      (sessionId : Option String)
  | toolSystemRoleProvider (model : String) (provider : String)
      (tools : Option (List String))
  | historySummaryProvider (historySummary : Option String)
  | inputTemplateProcessor (inputTemplate : Option String)
  | placeholderVariablesProcessor
  | messageContentProcessor (fileContextEnabled : Bool)
      (includeFileUrl : Bool) (model : String) (provider : String)
  | toolCallProcessor (model : String) (provider : String)
  | toolMessageReorder
  | messageCleanupProcessor
deriving DecidableEq, Repr

/-- The stage identity of a configured processor. -/
def PipelineProcessor.kind : PipelineProcessor → ProcessorKind
  | .historyTruncateProcessor _ _ => .historyTruncate
  | .systemRoleInjector _ => .systemRoleInjection
  | .inboxGuideProvider _ _ _ _ => .inboxGuide
  | .toolSystemRoleProvider _ _ _ => .toolSystemRole
  | .historySummaryProvider _ => .historySummary
  | .inputTemplateProcessor _ => .inputTemplate
  | .placeholderVariablesProcessor => .placeholderVariables
  | .messageContentProcessor _ _ _ _ => .messageContent
  | .toolCallProcessor _ _ => .toolCall
  | .toolMessageReorder => .toolMessageReorder
  | .messageCleanupProcessor => .messageCleanup

/-- The argument record of `contextEngineering`
(`ContextEngineeringContext`); messages are abstract (`M`). -/
structure ContextEngineeringContext (M : Type) where
  enableHistoryCount : Option Bool
  historyCount : Option Nat
  historySummary : Option String
  inputTemplate : Option String
  isWelcomeQuestion : Option Bool
  messages : List M
  model : String
  provider : String
  sessionId : Option String
  systemRole : Option String
  tools : Option (List String)

/-- The pipeline list built by `contextEngineering`.  The environment
constants `INBOX_GUIDE_SYSTEMROLE`, `INBOX_SESSION_ID`, `isServerMode` and
`isDesktop` are passed as parameters. -/
def contextEngineeringPipeline {M : Type} (inboxGuideSystemRole : String)
    (inboxSessionId : String) (isServerMode isDesktop : Bool)
    (ctx : ContextEngineeringContext M) : List PipelineProcessor :=
  [ .historyTruncateProcessor ctx.enableHistoryCount ctx.historyCount,
    .systemRoleInjector ctx.systemRole,
    .inboxGuideProvider inboxGuideSystemRole inboxSessionId
      ctx.isWelcomeQuestion ctx.sessionId,
    .toolSystemRoleProvider ctx.model ctx.provider ctx.tools,
    .historySummaryProvider ctx.historySummary,
    .inputTemplateProcessor ctx.inputTemplate,
    .placeholderVariablesProcessor,
    .messageContentProcessor isServerMode (!isDesktop) ctx.model
      ctx.provider,
    .toolCallProcessor ctx.model ctx.provider,
    .toolMessageReorder,
    .messageCleanupProcessor ]

/-! ### Concrete fixtures for witnesses and counterexamples -/

/-- A demo API entry. -/
def demoApi : LobeChatPluginApi Nat := ⟨"doThing", "does a thing", 0⟩

/-- A demo manifest with identifier "alpha" and one API entry. -/
def demoManifest : LobeChatPluginManifest Nat := ⟨"alpha", [demoApi], none⟩

/-- A second demo manifest with identifier "beta". -/
def demoManifestB : LobeChatPluginManifest Nat :=
  ⟨"beta", [⟨"otherThing", "does another thing", 1⟩], none⟩

/-- A concrete injected name generator (an external collaborator). -/
def demoNameGen : String → String → Option String → String :=
  fun identifier apiName _ => identifier ++ "." ++ apiName

/-- Options with one manifest, no checkers, "alpha" as default tool and a
concrete injected name generator. -/
def demoOptions : ToolsEngineOptions Nat Unit :=
  ⟨[demoManifest], none, none, some ["alpha"], some demoNameGen⟩

/-- Engine built from `demoOptions`. -/
def demoEngine : ToolsEngine Nat Unit := mkToolsEngine demoOptions

/-- Parameters that request "alpha", which is also a default tool id. -/
def demoParams : GenerateToolsParams Unit :=
  ⟨some ["alpha"], "gpt-4", "openai", none⟩

/-- Options whose function-call checker always reports no support. -/
def fcFalseOptions : ToolsEngineOptions Nat Unit :=
  ⟨[demoManifest], none, some (fun _ _ => false), none, none⟩

/-- Engine built from `fcFalseOptions`. -/
def fcFalseEngine : ToolsEngine Nat Unit := mkToolsEngine fcFalseOptions

/-- Parameters requesting "alpha" from `fcFalseEngine`. -/
def fcFalseParams : GenerateToolsParams Unit :=
  ⟨some ["alpha"], "gpt-4", "openai", none⟩

/-! ### Claims -/

/-- C1: `generateTools` returns absent exactly when the capability checker
reports no function-calling support for the (model, provider) or the list
of enabled manifests resolved from the merged tool ids is empty; in
particular a false capability check yields absent regardless of the
requested tool ids. -/
theorem generateTools_absent_iff {P C : Type} (e : ToolsEngine P C)
    (params : GenerateToolsParams C) :
    (e.generateTools params = none ↔
      e.checkFunctionCallSupport params.model params.provider = false ∨
        (e.filterEnabledPlugins (params.toolIds.getD [] ++ e.defaultToolIds)
            params.model params.provider params.context).enabledManifests =
          []) ∧
    (e.checkFunctionCallSupport params.model params.provider = false →
      e.generateTools params = none) := by
  unfold ToolsEngine.generateTools
  cases hfc : e.checkFunctionCallSupport params.model params.provider with
  | false => simp
  | true =>
      simp only [Bool.not_true, Bool.false_eq_true, if_false, false_or,
        false_implies, and_true]
      by_cases h :
          (e.filterEnabledPlugins
            (params.toolIds.getD [] ++ e.defaultToolIds) params.model
            params.provider params.context).enabledManifests.length = 0
      · simp [h, List.length_eq_zero.mp h]
      · have hne :
            (e.filterEnabledPlugins
              (params.toolIds.getD [] ++ e.defaultToolIds) params.model
              params.provider params.context).enabledManifests ≠ [] :=
          fun hc => h (by rw [hc]; rfl)
        simp [h, hne]

/-- C1 witness: a concrete engine whose capability checker reports no
support returns absent. -/
theorem generateTools_absent_iff_witness :
    fcFalseEngine.generateTools fcFalseParams = none :=
  (generateTools_absent_iff fcFalseEngine fcFalseParams).2 (by decide)

/-- C2 counterexample: with "alpha" both a requested and a default tool id,
the single resolved manifest contributes its tool twice, and the two
resulting uniform tools share a calling name. -/
theorem generateTools_dup_counterexample :
    ((demoEngine.generateTools demoParams).getD []).length = 2 ∧
      ¬ (((demoEngine.generateTools demoParams).getD []).map
          (fun t => t.function.name)).Nodup := by
  decide

/-- C2 amended: each occurrence of an id in the merged list contributes
the resolved, enabled manifest once — no deduplication happens — so an id
that is both requested and a default contributes it at least twice. -/
theorem filterEnabled_dup_contribution {P C : Type} [DecidableEq P]
    (e : ToolsEngine P C) (params : GenerateToolsParams C) (id : String)
    (m : LobeChatPluginManifest P)
    (h1 : id ∈ params.toolIds.getD []) (h2 : id ∈ e.defaultToolIds)
    (hm : mapGet e.manifestSchemas id = some m)
    (hen : e.pluginEnabled params.context m params.model id
        params.provider = true) :
    2 ≤ ((e.filterEnabledPlugins
        (params.toolIds.getD [] ++ e.defaultToolIds) params.model
        params.provider params.context).enabledManifests.count m) := by
  rw [filterEnabledPlugins_eq]
  simp only
  rw [List.filterMap_append, List.count_append]
  have hres :
      enabledResolve e params.model params.provider params.context id =
        some m := by
    unfold enabledResolve
    rw [hm]
    simp [hen]
  have key : ∀ l : List String, id ∈ l →
      1 ≤ (l.filterMap (enabledResolve e params.model params.provider
        params.context)).count m := by
    intro l hl
    rw [List.one_le_count_iff, List.mem_filterMap]
    exact ⟨id, hl, hres⟩
  have k1 := key _ h1
  have k2 := key _ h2
  omega

/-- C2 witness: the demo engine counts the "alpha" manifest twice among
the enabled manifests. -/
theorem filterEnabled_dup_contribution_witness :
    2 ≤ ((demoEngine.filterEnabledPlugins
        (demoParams.toolIds.getD [] ++ demoEngine.defaultToolIds)
        demoParams.model demoParams.provider
        demoParams.context).enabledManifests.count demoManifest) :=
  filterEnabled_dup_contribution demoEngine demoParams "alpha" demoManifest
    (by decide) (by decide) (by decide) (by decide)

/-- C3 counterexample: when the capability checker reports no support, the
simple variant is absent while the detailed variant still carries the tool
list, so the two differ. -/
theorem generateTools_detailed_mismatch :
    fcFalseEngine.generateTools fcFalseParams ≠
      (fcFalseEngine.generateToolsDetailed fcFalseParams).tools := by
  decide

/-- C3 amended: the simple result equals the detailed result's tool list
whenever function calling is supported and either no manifest is enabled
or the converted tool list is nonempty; `generateToolsDetailed` performs
no capability check at all. -/
theorem generateTools_eq_detailed {P C : Type} (e : ToolsEngine P C)
    (params : GenerateToolsParams C)
    (hfc : e.checkFunctionCallSupport params.model params.provider = true)
    (hside :
      (e.filterEnabledPlugins (params.toolIds.getD [] ++ e.defaultToolIds)
          params.model params.provider params.context).enabledManifests =
        [] ∨
      e.convertManifestsToTools
          (e.filterEnabledPlugins
            (params.toolIds.getD [] ++ e.defaultToolIds) params.model
            params.provider params.context).enabledManifests ≠ []) :
    e.generateTools params = (e.generateToolsDetailed params).tools := by
  unfold ToolsEngine.generateTools ToolsEngine.generateToolsDetailed
  simp only [hfc, Bool.not_true, Bool.false_eq_true, if_false]
  rcases hside with h | h
  · rw [h]
    simp [ToolsEngine.convertManifestsToTools]
  · have hlen :
        (e.filterEnabledPlugins
          (params.toolIds.getD [] ++ e.defaultToolIds) params.model
          params.provider params.context).enabledManifests.length ≠ 0 := by
      intro hc
      apply h
      rw [List.length_eq_zero.mp hc]
      rfl
    have hpos := List.length_pos.mpr h
    simp [hlen, hpos]

/-- C3 witness: on the demo engine (no capability checker, one enabled
manifest with one API) the two variants agree. -/
theorem generateTools_eq_detailed_witness :
    demoEngine.generateTools demoParams =
      (demoEngine.generateToolsDetailed demoParams).tools :=
  generateTools_eq_detailed demoEngine demoParams (by decide)
    (Or.inr (by decide))

/-- Parameters requesting an id absent from the demo registry. -/
def gammaParams : GenerateToolsParams Unit :=
  ⟨some ["gamma"], "gpt-4", "openai", none⟩

/-- C4: the detailed result classifies each merged id missing from the
registry as `not_found` and each found-but-rejected id as `disabled`; every
non-rejected manifest's identifier appears in `enabledToolIds`; and the
diagnostics are always the full filter outcome, never collapsed. -/
theorem generateToolsDetailed_classification {P C : Type}
    (e : ToolsEngine P C) (params : GenerateToolsParams C) :
    ((e.generateToolsDetailed params).enabledToolIds =
      (e.filterEnabledPlugins (params.toolIds.getD [] ++ e.defaultToolIds)
        params.model params.provider
        params.context).enabledManifests.map (fun m => m.identifier)) ∧
    ((e.generateToolsDetailed params).filteredTools =
      (e.filterEnabledPlugins (params.toolIds.getD [] ++ e.defaultToolIds)
        params.model params.provider params.context).filteredPlugins) ∧
    (∀ id, id ∈ params.toolIds.getD [] ++ e.defaultToolIds →
      mapGet e.manifestSchemas id = none →
      (⟨id, FilterReason.not_found⟩ : FilteredPlugin) ∈
        (e.generateToolsDetailed params).filteredTools) ∧
    (∀ id m, id ∈ params.toolIds.getD [] ++ e.defaultToolIds →
      mapGet e.manifestSchemas id = some m →
      e.pluginEnabled params.context m params.model id params.provider =
        false →
      (⟨id, FilterReason.disabled⟩ : FilteredPlugin) ∈
        (e.generateToolsDetailed params).filteredTools) ∧
    (∀ id m, id ∈ params.toolIds.getD [] ++ e.defaultToolIds →
      mapGet e.manifestSchemas id = some m →
      e.pluginEnabled params.context m params.model id params.provider =
        true →
      m.identifier ∈ (e.generateToolsDetailed params).enabledToolIds) := by
  have hfe := filterEnabledPlugins_eq e
    (params.toolIds.getD [] ++ e.defaultToolIds) params.model
    params.provider params.context
  refine ⟨rfl, rfl, ?_, ?_, ?_⟩
  · intro id hmem hget
    show (⟨id, FilterReason.not_found⟩ : FilteredPlugin) ∈
      (e.filterEnabledPlugins (params.toolIds.getD [] ++ e.defaultToolIds)
        params.model params.provider params.context).filteredPlugins
    rw [hfe]
    exact List.mem_filterMap.mpr
      ⟨id, hmem, by unfold filteredResolve; rw [hget]⟩
  · intro id m hmem hget hen
    show (⟨id, FilterReason.disabled⟩ : FilteredPlugin) ∈
      (e.filterEnabledPlugins (params.toolIds.getD [] ++ e.defaultToolIds)
        params.model params.provider params.context).filteredPlugins
    rw [hfe]
    exact List.mem_filterMap.mpr
      ⟨id, hmem, by unfold filteredResolve; rw [hget]; simp [hen]⟩
  · intro id m hmem hget hen
    show m.identifier ∈
      ((e.filterEnabledPlugins (params.toolIds.getD [] ++ e.defaultToolIds)
        params.model params.provider
        params.context).enabledManifests.map (fun m => m.identifier))
    rw [hfe]
    exact List.mem_map_of_mem _ (List.mem_filterMap.mpr
      ⟨id, hmem, by unfold enabledResolve; rw [hget]; simp [hen]⟩)

/-- C4 witness: requesting the absent id "gamma" yields a `not_found`
diagnostic in the detailed result. -/
theorem generateToolsDetailed_classification_witness :
    (⟨"gamma", FilterReason.not_found⟩ : FilteredPlugin) ∈
      (demoEngine.generateToolsDetailed gammaParams).filteredTools :=
  (generateToolsDetailed_classification demoEngine gammaParams).2.2.1
    "gamma" (by decide) (by decide)

/-- C5: manifest conversion is append-homomorphic, maps one manifest to
one uniform tool per API entry in declaration order with description and
parameters copied and the calling name generated from identifier, api name
and manifest type, and its output length is the sum of the API list
lengths. -/
theorem convertManifestsToTools_spec {P C : Type} (e : ToolsEngine P C)
    (ms1 ms2 : List (LobeChatPluginManifest P))
    (m : LobeChatPluginManifest P) :
    (e.convertManifestsToTools (ms1 ++ ms2) =
      e.convertManifestsToTools ms1 ++ e.convertManifestsToTools ms2) ∧
    (e.convertManifestsToTools [m] =
      m.api.map (fun api =>
        ⟨⟨api.description,
          e.generateToolName m.identifier api.name m.type,
          api.parameters⟩, "function"⟩)) ∧
    ((e.convertManifestsToTools ms1).length =
      (ms1.map (fun mm => mm.api.length)).sum) := by
  refine ⟨?_, ?_, ?_⟩
  · unfold ToolsEngine.convertManifestsToTools
    exact List.flatMap_append ms1 ms2 _
  · unfold ToolsEngine.convertManifestsToTools
    rw [List.flatMap_cons, List.flatMap_nil, List.append_nil]
  · unfold ToolsEngine.convertManifestsToTools
    rw [List.length_flatMap]
    congr 1
    simp [Function.comp]

/-- C6: the pipeline built by `contextEngineering` consists of exactly
eleven processors in the fixed documented order, for every input. -/
theorem contextEngineering_pipeline_order {M : Type}
    (inboxGuideSystemRole inboxSessionId : String)
    (isServerMode isDesktop : Bool) (ctx : ContextEngineeringContext M) :
    (contextEngineeringPipeline inboxGuideSystemRole inboxSessionId
        isServerMode isDesktop ctx).map PipelineProcessor.kind =
      [ProcessorKind.historyTruncate, ProcessorKind.systemRoleInjection,
        ProcessorKind.inboxGuide, ProcessorKind.toolSystemRole,
        ProcessorKind.historySummary, ProcessorKind.inputTemplate,
        ProcessorKind.placeholderVariables, ProcessorKind.messageContent,
        ProcessorKind.toolCall, ProcessorKind.toolMessageReorder,
        ProcessorKind.messageCleanup] := rfl

/-- The modelled default generator separates distinct pairs whenever the
identifiers and api names avoid the reserved separator character. -/
theorem defaultGenerateToolName_sep_free_injective
    (id1 api1 id2 api2 : String) (ty1 ty2 : Option String)
    (h1 : toolNameSepChar ∉ id1.data) (h2 : toolNameSepChar ∉ api1.data)
    (h3 : toolNameSepChar ∉ id2.data) (h4 : toolNameSepChar ∉ api2.data)
    (hne : (id1, api1) ≠ (id2, api2)) :
    defaultGenerateToolName id1 api1 ty1 ≠
      defaultGenerateToolName id2 api2 ty2 := by
  intro heq
  have hdata := congrArg String.data heq
  rw [defaultGenerateToolName_data, defaultGenerateToolName_data] at hdata
  obtain ⟨hid, hrest⟩ := sep_split _ _ _ _ h1 h3 hdata
  obtain ⟨hapi, _⟩ := sep_split _ _ _ _ h2 h4 hrest
  exact hne (by rw [String.ext hid, String.ext hapi])

/-- C7 counterexample: two distinct (identifier, apiName) pairs whose
components contain the reserved separator collide under the modelled
default generator, refuting unconditional injectivity. -/
theorem defaultGenerateToolName_collision :
    ("a_b", "c") ≠ (("a" : String), ("b_c" : String)) ∧
      defaultGenerateToolName "a_b" "c" none =
        defaultGenerateToolName "a" "b_c" none := by
  decide

/-- C7 amended: the engine's name generation separates every two distinct
(identifier, apiName) pairs when either no generator is injected and the
identifiers and api names avoid the reserved separator character, or the
injected generator satisfies the injectivity contract. -/
theorem generateToolName_injective_amended {P C : Type}
    (e : ToolsEngine P C) (id1 api1 id2 api2 : String)
    (ty1 ty2 : Option String) (hne : (id1, api1) ≠ (id2, api2)) :
    (e.options.generateToolName = none →
      toolNameSepChar ∉ id1.data → toolNameSepChar ∉ api1.data →
      toolNameSepChar ∉ id2.data → toolNameSepChar ∉ api2.data →
      e.generateToolName id1 api1 ty1 ≠
        e.generateToolName id2 api2 ty2) ∧
    (∀ g, e.options.generateToolName = some g →
      (∀ a1 b1 a2 b2 t1 t2, (a1, b1) ≠ (a2, b2) →
        g a1 b1 t1 ≠ g a2 b2 t2) →
      e.generateToolName id1 api1 ty1 ≠
        e.generateToolName id2 api2 ty2) := by
  constructor
  · intro hnone hs1 hs2 hs3 hs4
    unfold ToolsEngine.generateToolName
    rw [hnone]
    exact defaultGenerateToolName_sep_free_injective id1 api1 id2 api2
      ty1 ty2 hs1 hs2 hs3 hs4 hne
  · intro g hg hinj
    unfold ToolsEngine.generateToolName
    rw [hg]
    exact hinj id1 api1 id2 api2 ty1 ty2 hne

/-- C7 witness: an engine with no injected generator separates two
concrete separator-free pairs. -/
theorem generateToolName_injective_amended_witness :
    fcFalseEngine.generateToolName "alpha" "a" none ≠
      fcFalseEngine.generateToolName "beta" "b" (some "builtin") :=
  (generateToolName_injective_amended fcFalseEngine "alpha" "a" "beta"
      "b" none (some "builtin") (by decide)).1 rfl (by decide) (by decide)
    (by decide) (by decide)

/-- C8: with equal inputs and the same collaborators the Tools Engine and
the pipeline construction yield equal outputs: both are deterministic. -/
theorem runs_deterministic {P C M : Type} (e1 e2 : ToolsEngine P C)
    (p1 p2 : GenerateToolsParams C) (g1 g2 s1 s2 : String)
    (b1 b2 d1 d2 : Bool) (c1 c2 : ContextEngineeringContext M)
    (he : e1 = e2) (hp : p1 = p2) (hg : g1 = g2) (hs : s1 = s2)
    (hb : b1 = b2) (hd : d1 = d2) (hc : c1 = c2) :
    e1.generateTools p1 = e2.generateTools p2 ∧
    e1.generateToolsDetailed p1 = e2.generateToolsDetailed p2 ∧
    contextEngineeringPipeline g1 s1 b1 d1 c1 =
      contextEngineeringPipeline g2 s2 b2 d2 c2 := by
  subst he hp hg hs hb hd hc
  exact ⟨rfl, rfl, rfl⟩

/-- A concrete pipeline context for witnesses. -/
def demoCtx : ContextEngineeringContext Unit :=
  ⟨none, none, none, none, none, [], "gpt-4", "openai", none, none, none⟩

/-- C8 witness: two runs on the concrete demo inputs agree. -/
theorem runs_deterministic_witness :
    demoEngine.generateTools demoParams =
        demoEngine.generateTools demoParams ∧
      demoEngine.generateToolsDetailed demoParams =
        demoEngine.generateToolsDetailed demoParams ∧
      contextEngineeringPipeline "guide" "inbox" true false demoCtx =
        contextEngineeringPipeline "guide" "inbox" true false demoCtx :=
  runs_deterministic demoEngine demoEngine demoParams demoParams "guide"
    "guide" "inbox" "inbox" true true false false demoCtx demoCtx rfl rfl
    rfl rfl rfl rfl rfl

/-- C9: without a function-call checker the capability check always
reports support; without an enable checker every id found in the registry
is enabled and nothing is ever classified `disabled`. -/
theorem default_checkers_permissive {P C : Type} (e : ToolsEngine P C) :
    (e.functionCallChecker = none →
      ∀ model provider,
        e.checkFunctionCallSupport model provider = true) ∧
    (e.enableChecker = none →
      ∀ (ids : List String) (model provider : String)
        (context : Option C),
        (∀ f ∈ (e.filterEnabledPlugins ids model provider
            context).filteredPlugins,
          f.reason = FilterReason.not_found) ∧
        (∀ id ∈ ids, ∀ m, mapGet e.manifestSchemas id = some m →
          m ∈ (e.filterEnabledPlugins ids model provider
            context).enabledManifests)) := by
  constructor
  · intro h model provider
    unfold ToolsEngine.checkFunctionCallSupport
    rw [h]
  · intro h ids model provider context
    have hen : ∀ m id, e.pluginEnabled context m model id provider =
        true := by
      intro m id
      unfold ToolsEngine.pluginEnabled
      rw [h]
      rfl
    constructor
    · intro f hf
      rw [filterEnabledPlugins_eq] at hf
      simp only at hf
      obtain ⟨id, _, hres⟩ := List.mem_filterMap.mp hf
      unfold filteredResolve at hres
      cases hg : mapGet e.manifestSchemas id with
      | none =>
          rw [hg] at hres
          simp only [Option.some.injEq] at hres
          rw [← hres]
      | some m =>
          rw [hg] at hres
          simp [hen m id] at hres
    · intro id hid m hg
      rw [filterEnabledPlugins_eq]
      simp only
      exact List.mem_filterMap.mpr
        ⟨id, hid, by unfold enabledResolve; rw [hg]; simp [hen m id]⟩

/-- C9 witness: the demo engine has neither checker; support is reported
and the present id "alpha" is enabled. -/
theorem default_checkers_permissive_witness :
    demoEngine.checkFunctionCallSupport "gpt-4" "openai" = true :=
  (default_checkers_permissive demoEngine).1 rfl "gpt-4" "openai"

/-- C10: registry laws: after `addPluginManifest m` the identifier is
present, reads back `m`, and other keys are untouched;
`removePluginManifest` returns presence and removes the key;
`updateManifestSchemas list` makes the available plugins exactly the
identifiers of `list`, a lookup returning the last manifest with the
identifier. -/
theorem registry_laws {P C : Type} (e : ToolsEngine P C)
    (m : LobeChatPluginManifest P) (pluginId other : String)
    (list : List (LobeChatPluginManifest P)) :
    ((e.addPluginManifest m).hasPlugin m.identifier = true) ∧
    ((e.addPluginManifest m).getPluginManifest m.identifier = some m) ∧
    (other ≠ m.identifier →
      (e.addPluginManifest m).getPluginManifest other =
        e.getPluginManifest other) ∧
    ((e.removePluginManifest pluginId).1 = e.hasPlugin pluginId) ∧
    ((e.removePluginManifest pluginId).2.hasPlugin pluginId = false) ∧
    (∀ pid, pid ∈ (e.updateManifestSchemas list).getAvailablePlugins ↔
      pid ∈ list.map (fun s => s.identifier)) ∧
    (∀ pid, (e.updateManifestSchemas list).getPluginManifest pid =
      list.reverse.find? (fun s => s.identifier == pid)) := by
  refine ⟨?_, ?_, ?_, rfl, ?_, ?_, ?_⟩
  · show mapHas (mapSet e.manifestSchemas m.identifier m) m.identifier =
      true
    rw [mapHas_eq_isSome_mapGet, mapGet_mapSet, if_pos rfl]
    rfl
  · show mapGet (mapSet e.manifestSchemas m.identifier m) m.identifier =
      some m
    rw [mapGet_mapSet, if_pos rfl]
  · intro hne
    show mapGet (mapSet e.manifestSchemas m.identifier m) other =
      mapGet e.manifestSchemas other
    rw [mapGet_mapSet, if_neg (fun hc => hne hc.symm)]
  · show mapHas (mapDelete e.manifestSchemas pluginId) pluginId = false
    rw [mapHas_eq_isSome_mapGet, mapGet_mapDelete_self]
    rfl
  · intro pid
    show pid ∈ (mapFromList list).map (fun p => p.1) ↔ _
    rw [mem_keys_iff_mapHas, mapHas_eq_isSome_mapGet, mapGet_mapFromList,
      List.find?_isSome]
    simp [List.mem_reverse, beq_iff_eq, List.mem_map]
  · intro pid
    show mapGet (mapFromList list) pid = _
    exact mapGet_mapFromList list pid

/-- C10 witness: on the demo engine, adding "beta" leaves "alpha"
untouched and removing "alpha" removes it. -/
theorem registry_laws_witness :
    (demoEngine.addPluginManifest demoManifestB).getPluginManifest
        "alpha" = demoEngine.getPluginManifest "alpha" ∧
      (demoEngine.removePluginManifest "alpha").2.hasPlugin "alpha" =
        false :=
  ⟨(registry_laws demoEngine demoManifestB "x" "alpha" []).2.2.1
      (by decide),
    (registry_laws demoEngine demoManifestB "alpha" "y" []).2.2.2.2.1⟩

end ContextEngineCore
